import Mathlib

/-!
# Verification of the `WsClient` connection manager

Shallow embedding of the WebSocket client class `WsClient`
(reconnect with exponential backoff, type-keyed pub/sub dispatch with a
wildcard channel, send with optional ack correlation, heartbeat).

JS numbers are modelled as `ℚ`; every concrete numeric value appearing in
the claims (1000, 2, 5000, 2.5, …) is exactly representable in binary64,
so binary64 arithmetic and `ℚ` arithmetic agree on them.  JSON values are
an inductive type; callbacks are identified by `ℕ` identities (JS `Set`
membership is by function identity).  Each event handler and method of the
class is embedded as a function from the client state to a new state
together with a list of observable effects (subscriber invocations,
transmissions, promise settlements, scheduled reconnect attempts, log
lines).
-/

mutual

/-- A JSON value, as produced by `JSON.parse`.  Runtime JS objects have
unique keys, so `obj` field lists are key-unique for every value coming
off the wire or built by the client. -/
inductive Json : Type
  | null : Json
  | bool : Bool → Json
  | num : ℚ → Json
  | str : String → Json
  | arr : JsonArr → Json
  | obj : JsonFields → Json

/-- Elements of a JSON array. -/
inductive JsonArr : Type
  | nil : JsonArr
  | cons : Json → JsonArr → JsonArr

/-- Fields of a JSON object, in property order. -/
inductive JsonFields : Type
  | nil : JsonFields
  | cons : String → Json → JsonFields → JsonFields

end

deriving instance DecidableEq for Json, JsonArr, JsonFields

/-- Build a field list from a Lean list literal. -/
def JsonFields.ofList : List (String × Json) → JsonFields
  | [] => .nil
  | (k, v) :: rest => .cons k v (JsonFields.ofList rest)

/-- Object literal helper. -/
def Json.objL (l : List (String × Json)) : Json :=
  .obj (JsonFields.ofList l)

/-- Property lookup among object fields. -/
def JsonFields.get : JsonFields → String → Option Json
  | .nil, _ => none
  | .cons k2 v tl, k => if k2 = k then some v else JsonFields.get tl k

/-- Object spread `\x7b ...obj, k: v \x7d` on a key-unique field list:
overwrite `k` in place if present (spread keeps the original key
position), append otherwise. -/
def JsonFields.setField : JsonFields → String → Json → JsonFields
  | .nil, k, v => .cons k v .nil
  | .cons k2 v2 tl, k, v =>
    if k2 = k then .cons k v tl else .cons k2 v2 (JsonFields.setField tl k v)

/-- Property access `data.k` on a parsed JSON value: object lookup,
`undefined` (here `none`) on non-objects. -/
def getField (j : Json) (k : String) : Option Json :=
  match j with
  | .obj fs => fs.get k
  | _ => none

/-- JS truthiness of a possibly-undefined JSON value. -/
def truthy : Option Json → Bool
  | none => false
  | some .null => false
  | some (.bool b) => b
  | some (.num q) => decide (q ≠ 0)
  | some (.str s) => decide (s ≠ "")
  | some (.arr _) => true
  | some (.obj _) => true

/-- A JavaScript value as it reaches a callback argument position:
`undefined`, a JSON-representable value, or an opaque error/event object
identified by a tag. -/
inductive JsVal : Type
  | undef : JsVal
  | json : Json → JsVal
  | errObj : String → JsVal
deriving DecidableEq

/-- A possibly-absent JSON field as a callback-argument value. -/
def optToVal : Option Json → JsVal
  | none => .undef
  | some j => .json j

/-- `WebSocket.readyState` values. -/
inductive ReadyState : Type
  | CONNECTING | OPEN | CLOSING | CLOSED
deriving DecidableEq

/-- Observable effects of a handler or method run. -/
inductive Eff : Type
  | call : ℕ → List JsVal → Eff        -- a subscriber callback invocation
  | wsSendEff : Json → Eff             -- `this.ws.send(JSON.stringify(...))`
  | wsCloseEff : Eff                   -- `this.ws.close()`
  | resolveP : String → JsVal → Eff    -- pending-ack promise resolved (by request id)
  | rejectP : Option String → String → Eff -- a promise rejected with an Error message
  | schedule : ℚ → Eff                 -- `setTimeout(() => this._connectOnce(), delay)`
  | log : String → Eff                 -- `console.error(...)`
deriving DecidableEq

/-- Constructor options object (absent field = not passed). -/
structure Opts : Type where
  reconnectDelay : Option ℚ
  maxReconnectDelay : Option ℚ
  backoffFactor : Option ℚ
  heartbeatInterval : Option ℚ
deriving DecidableEq

/-- JS defaulting idiom `x || d`: `0` (and absence) are falsy. -/
def jsOr (v : Option ℚ) (d : ℚ) : ℚ :=
  match v with
  | none => d
  | some x => if x = 0 then d else x

/-- The mutable state of one `WsClient` instance.  `_pendingAcks` holds the
request ids with a live resolution entry; `_ackTimers` holds the request
ids whose `setTimeout` ack-timeout timer is still active, with its
configured duration (the entry's `resolve` closure captures and clears that
timer). -/
structure WsState : Type where
  url : String
  _ws : Option ReadyState              -- `this.ws`: none = null
  _listeners : List (String × List ℕ)  -- eventType → callback identities
  _anyListeners : List ℕ               -- wildcard callbacks
  _nextRequestId : ℕ
  _pendingAcks : List String
  _ackTimers : List (String × ℚ)
  _reconnectDelay : ℚ
  _maxReconnectDelay : ℚ
  _backoffFactor : ℚ
  _heartbeatInterval : ℚ
  _heartbeatTimer : Option Unit
  _shouldReconnect : Bool
deriving DecidableEq

/-- `new WsClient(url, opts)`. -/
def mkClient (url : String) (opts : Opts) : WsState where
  url := url
  _ws := none
  _listeners := []
  _anyListeners := []
  _nextRequestId := 1
  _pendingAcks := []
  _ackTimers := []
  _reconnectDelay := jsOr opts.reconnectDelay 1000
  _maxReconnectDelay := jsOr opts.maxReconnectDelay 30000
  _backoffFactor := jsOr opts.backoffFactor (8/5)
  _heartbeatInterval := jsOr opts.heartbeatInterval 20000
  _heartbeatTimer := none
  _shouldReconnect := true

/-- Lookup in the `_listeners` map (empty set when the key is absent). -/
def lookupL (m : List (String × List ℕ)) (k : String) : List ℕ :=
  match m with
  | [] => []
  | (k2, v) :: rest => if k2 = k then v else lookupL rest k

/-- JS `Set.add`: no duplicate membership, insertion order kept. -/
def addIfAbsent (l : List ℕ) (cb : ℕ) : List ℕ :=
  if cb ∈ l then l else l ++ [cb]

/-- Update the `_listeners` map at one key. -/
def setL (m : List (String × List ℕ)) (k : String) (v : List ℕ) :
    List (String × List ℕ) :=
  match m with
  | [] => [(k, v)]
  | (k2, v2) :: rest =>
    if k2 = k then (k, v) :: rest else (k2, v2) :: setL rest k v

/-- `on(eventType, cb)` of the source (`on` is reserved notation here). -/
def onEvt (s : WsState) (eventType : String) (cb : ℕ) : WsState :=
  if eventType = "*" then
    { s with _anyListeners := addIfAbsent s._anyListeners cb }
  else
    let v := addIfAbsent (lookupL s._listeners eventType) cb
    { s with _listeners := setL s._listeners eventType v }

/-- `off(eventType, cb)` of the source. -/
def offEvt (s : WsState) (eventType : String) (cb : ℕ) : WsState :=
  if eventType = "*" then
    { s with _anyListeners := s._anyListeners.filter (fun c => c ≠ cb) }
  else
    let v := (lookupL s._listeners eventType).filter (fun c => c ≠ cb)
    { s with _listeners := setL s._listeners eventType v }

/-- One pending callback invocation: identity plus the argument list that
`_emit` passes (type-keyed callbacks get `(payload, full)`, wildcard
callbacks get `(eventType, payload, full)`). -/
structure Call : Type where
  cb : ℕ
  args : List JsVal
deriving DecidableEq

/-- The type-keyed callback set `_emit` iterates for a given first
argument: `this._listeners.get(eventType)` hits only when the key is a
string (the map is populated by `on` with string keys). -/
def typeListenersFor (s : WsState) (eventType : JsVal) : List ℕ :=
  match eventType with
  | .json (.str k) => lookupL s._listeners k
  | _ => []

/-- The invocation snapshot of `_emit(eventType, payload, full)`: every
type-keyed callback with `(payload, full)`, then every wildcard callback
with `(eventType, payload, full)`. -/
def emitCallList (s : WsState) (eventType payload full : JsVal) : List Call :=
  (typeListenersFor s eventType).map (fun cb => ⟨cb, [payload, full]⟩)
  ++ s._anyListeners.map (fun cb => ⟨cb, [eventType, payload, full]⟩)

/-- The call effects `_emit` records (invocation order and arguments). -/
def emitEffs (s : WsState) (eventType payload full : JsVal) : List Eff :=
  (emitCallList s eventType payload full).map (fun c => .call c.cb c.args)

/-- Invoking one callback under a behaviour environment: `throws cb = true`
means the callback body raises. -/
def invokeCb (throws : ℕ → Bool) (cb : ℕ) : Except String Unit :=
  if throws cb then .error "listener error" else .ok ()

/-- One iteration of an `_emit` loop body: `try \x7b cb(...) \x7d catch (e)
\x7b console.error(...) \x7d` — the exception is caught for this callback
alone and logged. -/
def runOneCb (throws : ℕ → Bool) (c : Call) : List Eff :=
  match invokeCb throws c.cb with
  | .ok _ => [.call c.cb c.args]
  | .error e => [.call c.cb c.args, .log e]

/-- Full run of `_emit(eventType, payload, full)` under a callback
behaviour environment.  The `Except` codomain is where an uncaught
callback exception would surface to `_emit`'s caller; the per-callback
`try/catch` in the source is what keeps the result in `.ok`. -/
def emitRun (throws : ℕ → Bool) (s : WsState) (eventType payload full : JsVal) :
    Except String (List Eff) :=
  .ok ((emitCallList s eventType payload full).foldl
    (fun acc c => acc ++ runOneCb throws c) [])

/-- The `"open"` handler registered in `_connectOnce`: the transport has
transitioned to `OPEN`; the code resets `_reconnectDelay` to the literal
`1000`, emits a local `open` event, and starts the heartbeat. -/
def openHandler (s : WsState) : WsState × List Eff :=
  let s1 : WsState :=
    { s with _ws := some .OPEN, _reconnectDelay := 1000, _heartbeatTimer := some () }
  (s1, emitEffs s (.json (.str "open")) .undef .undef)

/-- The `"close"` handler registered in `_connectOnce`: emit `close` with
the raw close event, stop the heartbeat, null the handle; if reconnect
intent is set, schedule `_connectOnce` after the current (pre-growth)
delay, then grow the delay to `min(delay * factor, max)`. -/
def closeHandler (s : WsState) (ev : JsVal) : WsState × List Eff :=
  let effs := emitEffs s (.json (.str "close")) ev .undef
  let s1 : WsState := { s with _heartbeatTimer := none, _ws := none }
  if s1._shouldReconnect then
    let grown := min (s1._reconnectDelay * s1._backoffFactor) s1._maxReconnectDelay
    ({ s1 with _reconnectDelay := grown }, effs ++ [.schedule s1._reconnectDelay])
  else
    (s1, effs)

/-- The `"error"` handler registered in `_connectOnce`. -/
def errorHandler (s : WsState) (err : JsVal) : WsState × List Eff :=
  (s, emitEffs s (.json (.str "error")) err .undef)

/-- The ack-consumption test of the message handler:
`if (type === "ack" && request_id)` followed by
`this._pendingAcks.get(request_id)`.  The pending table is keyed by the
strings `send` produced, so a truthy non-string `request_id` never finds a
resolver; a condition that holds without a live entry falls through to
ordinary dispatch. -/
def ackResolver (s : WsState) (ty request_id : Option Json) : Option String :=
  match ty, request_id with
  | some (.str t), some (.str r) =>
    if t = "ack" ∧ r ≠ "" ∧ s._pendingAcks.contains r then some r else none
  | _, _ => none

/-- The `"message"` handler registered in `_connectOnce`.  `raw = none`
models `JSON.parse(msg.data)` throwing (malformed JSON); `some data` is
the parsed value.  Destructuring `const ... = data` throws only when
`data` is `null`, which the surrounding `try` also catches as an `error`
event.  An `ack` frame with a truthy `request_id` matching a live pending
entry is consumed: its entry's `resolve` closure clears the timeout timer
and resolves the promise with `payload`, and the entry is deleted.  Every
other frame falls through to `_emit(type, payload, data); _emit("*", data)`. -/
def messageHandler (s : WsState) (raw : Option Json) : WsState × List Eff :=
  match raw with
  | none => (s, emitEffs s (.json (.str "error")) (.errObj "SyntaxError") .undef)
  | some .null =>
    (s, emitEffs s (.json (.str "error")) (.errObj "TypeError") .undef)
  | some data =>
    let ty := getField data "type"
    let payload := getField data "payload"
    let request_id := getField data "request_id"
    match ackResolver s ty request_id with
    | some r =>
      ({ s with
          _ackTimers := s._ackTimers.filter (fun p => p.1 ≠ r),
          _pendingAcks := s._pendingAcks.filter (fun x => x ≠ r) },
       [.resolveP r (optToVal payload)])
    | none =>
      (s, emitEffs s (optToVal ty) (optToVal payload) (.json data)
          ++ emitEffs s (.json (.str "*")) (.json data) .undef)

/-- `disconnect()`: clear reconnect intent, close any live transport, null
the handle, stop the heartbeat.  Pending acks and their timers are not
touched. -/
def disconnect (s : WsState) : WsState × List Eff :=
  match s._ws with
  | some _ =>
    ({ s with _shouldReconnect := false, _ws := none, _heartbeatTimer := none },
     [.wsCloseEff])
  | none =>
    ({ s with _shouldReconnect := false, _heartbeatTimer := none }, [])

/-- Result of a `send` call, as seen by the caller. -/
inductive SendRes : Type
  | notOpen : SendRes            -- Promise.reject(Error "WebSocket is not open")
  | sent : SendRes               -- fire-and-forget: Promise.resolve()
  | pending : String → SendRes   -- awaiting an ack under this request id
deriving DecidableEq

/-- `send(obj, \x7b awaitAck, timeout \x7d)`.  The command `obj` is the
field list of the caller's object; it is spread into a fresh packet, so
the caller's object is never changed.  On an open transport a fresh
request id — the decimal rendering of the post-incremented counter — is
attached (overwriting any caller-supplied `request_id`), the packet is
serialized and transmitted; with `awaitAck` a pending entry and its
timeout timer are installed. -/
def send (s : WsState) (obj : JsonFields) (awaitAck : Bool)
    (timeout : ℚ) : WsState × List Eff × SendRes :=
  match s._ws with
  | some .OPEN =>
    let request_id := toString s._nextRequestId
    let s1 : WsState := { s with _nextRequestId := s._nextRequestId + 1 }
    let packet := obj.setField "request_id" (.str request_id)
    if awaitAck then
      ({ s1 with
          _pendingAcks := s1._pendingAcks ++ [request_id],
          _ackTimers := s1._ackTimers ++ [(request_id, timeout)] },
       [.wsSendEff (.obj packet)], .pending request_id)
    else
      (s1, [.wsSendEff (.obj packet)], .sent)
  | _ => (s, [], .notOpen)

/-- The runtime firing of the ack-timeout timer installed by `send` for
request id `r`: it runs only while the timer is still active (a cleared
timer never fires); the callback deletes the pending entry and rejects
with `Error("Ack timeout")`. -/
def timeoutFire (s : WsState) (r : String) : WsState × List Eff :=
  if s._ackTimers.any (fun p => p.1 = r) then
    ({ s with
        _ackTimers := s._ackTimers.filter (fun p => p.1 ≠ r),
        _pendingAcks := s._pendingAcks.filter (fun x => x ≠ r) },
     [.rejectP (some r) "Ack timeout"])
  else (s, [])

/-- Number of invocation effects addressed to callback `cb`. -/
def callsTo (cb : ℕ) (effs : List Eff) : ℕ :=
  effs.countP (fun e => match e with | .call c _ => c = cb | _ => false)

/-- Number of invocation effects addressed to callback `cb` with exactly the
argument list `args`. -/
def countCall (cb : ℕ) (args : List JsVal) (effs : List Eff) : ℕ :=
  effs.countP (fun e => e = .call cb args)

/-- The delay of a scheduled reconnect attempt, if the effect is one. -/
def schedOf : Eff → Option ℚ
  | .schedule d => some d
  | _ => none

/-- The delays of the reconnect attempts scheduled by `n` consecutive close
events (no intervening open), in order. -/
def scheduledDelays : WsState → ℕ → List ℚ
  | _, 0 => []
  | s, n + 1 =>
    match closeHandler s (.errObj "close") with
    | (s1, effs) => effs.filterMap schedOf ++ scheduledDelays s1 n

/-- Registry shape maintained by `on`/`off`: each callback set is
duplicate-free (JS `Set`) and the key `"*"` never reaches the type-keyed
map (`on("*")`/`off("*")` divert to the wildcard set). -/
def wfListeners (s : WsState) : Prop :=
  (∀ k, (lookupL s._listeners k).Nodup) ∧
  s._anyListeners.Nodup ∧
  lookupL s._listeners "*" = []

/-- An inbound ack frame correlated to request id `r`. -/
def mkAckFrame (r : String) (pl : Json) : Json :=
  Json.objL [("type", .str "ack"), ("request_id", .str r), ("payload", pl)]

/-- An options object passing nothing (all defaults). -/
def noOpts : Opts := ⟨none, none, none, none⟩

/-- The spec's dispatch scenario: one subscriber (identity 0) on `"trade"`
and one wildcard subscriber (identity 1). -/
def tradeClient : WsState := onEvt (onEvt (mkClient "wss://x" noOpts) "trade" 0) "*" 1

/-- Payload of the spec's example trade frame. -/
def tradePayload : Json := Json.objL [("id", .num 1), ("pnl", .num (5/2))]

/-- The spec's example inbound frame. -/
def tradeFrame : Json := Json.objL [("type", .str "trade"), ("payload", tradePayload)]

/-- A client whose transport is open. -/
def openClient : WsState := { mkClient "wss://x" noOpts with _ws := some .OPEN }

/-- State after `send(\x7b cmd: "x", request_id: "zz" \x7d, \x7b awaitAck: true,
timeout: 5000 \x7d)` on the open client: request id `"1"` pending. -/
def pendClient : WsState :=
  (send openClient (JsonFields.ofList [("cmd", .str "x"), ("request_id", .str "zz")])
    true 5000).1

/-- The claims' backoff configuration. -/
def backoffOpts : Opts := ⟨some 1000, some 5000, some 2, none⟩

/-- Client for the late-ack scenario: an `"ack"` subscriber (identity 8) and
a wildcard subscriber (identity 7), with request id `"1"` pending. -/
def lateAckPend : WsState :=
  (send (onEvt (onEvt openClient "ack" 8) "*" 7)
    (JsonFields.ofList [("cmd", .str "x")]) true 100).1

/-- `lateAckPend` after its ack timeout fired: the entry is gone. -/
def lateAckAfter : WsState := (timeoutFire lateAckPend "1").1

/-- The ack frame arriving after the timeout already fired. -/
def lateAckFrame : Json := mkAckFrame "1" (Json.objL [("ok", .bool true)])

/-- Payload carried by example ack frames. -/
def ackPayload : Json := Json.objL [("ok", .bool true)]

/-- Client for the missing-`type` scenario: an `"error"` subscriber
(identity 5) and a wildcard subscriber (identity 0). -/
def missTypeClient : WsState := onEvt (onEvt (mkClient "wss://x" noOpts) "error" 5) "*" 0

/-- A well-formed JSON object with no `type` field. -/
def noTypeFrame : Json := Json.objL [("payload", .num 1)]

/-- The call effects among a list of effects, in order. -/
def callsOf (effs : List Eff) : List Call :=
  effs.filterMap (fun e => match e with | .call c a => some ⟨c, a⟩ | _ => none)

/-- Overwriting a field makes the written value the one found under that
key, whatever the original object carried there. -/
theorem JsonFields.get_setField : ∀ (fs : JsonFields) (k : String) (v : Json),
    (fs.setField k v).get k = some v
  | .nil, k, v => by simp [JsonFields.setField, JsonFields.get]
  | .cons k2 v2 tl, k, v => by
    by_cases h : k2 = k
    · simp [JsonFields.setField, h, JsonFields.get]
    · simp [JsonFields.setField, h, JsonFields.get, JsonFields.get_setField tl k v]

/-- `disconnect` clears intent and the heartbeat but leaves the pending-ack
table and its timers untouched, whichever branch the handle check takes. -/
theorem disconnect_fields (s : WsState) :
    (disconnect s).1._pendingAcks = s._pendingAcks ∧
    (disconnect s).1._ackTimers = s._ackTimers ∧
    (disconnect s).1._heartbeatTimer = none ∧
    (disconnect s).1._shouldReconnect = false ∧
    (disconnect s).1._listeners = s._listeners ∧
    (disconnect s).1._anyListeners = s._anyListeners := by
  cases hws : s._ws <;> simp [disconnect, hws]

/-- C2 (code bug evidence): constructed with `reconnectDelay: 500` the base
delay is 500, yet the open handler resets the current delay to the literal
1000, not to the configured base. -/
theorem C2_open_reset_bug :
    (mkClient "wss://x" ⟨some 500, none, none, none⟩)._reconnectDelay = 500 ∧
    ((openHandler (mkClient "wss://x" ⟨some 500, none, none, none⟩)).1)._reconnectDelay
      = 1000 ∧
    (1000 : ℚ) ≠ 500 :=
  ⟨rfl, rfl, by norm_num⟩

/-- C3: while reconnect intent holds, a close schedules the reconnect
attempt with the pre-growth delay (the schedule effect carries the current
delay) and only afterwards grows the delay to `min(delay * factor, max)`;
with `reconnectDelay: 1000, backoffFactor: 2, maxReconnectDelay: 5000`,
five consecutive closes schedule 1000, 2000, 4000, 5000, 5000 ms. -/
theorem C3_backoff_schedule (s : WsState) (ev : JsVal)
    (h : s._shouldReconnect = true) :
    ((closeHandler s ev).2 =
       emitEffs s (.json (.str "close")) ev .undef ++ [.schedule s._reconnectDelay]) ∧
    ((closeHandler s ev).1._reconnectDelay =
       min (s._reconnectDelay * s._backoffFactor) s._maxReconnectDelay) ∧
    scheduledDelays (mkClient "wss://x" backoffOpts) 5 =
      [1000, 2000, 4000, 5000, 5000] := by
  refine ⟨by simp [closeHandler, h], by simp [closeHandler, h], ?_⟩
  simp [scheduledDelays, closeHandler, backoffOpts, mkClient, jsOr, emitEffs,
    emitCallList, typeListenersFor, schedOf, List.filterMap]
  norm_num [min_def]

/-- Witness for C3: the first close of a freshly constructed client
schedules exactly the base delay. -/
theorem C3_backoff_schedule_wit :
    (closeHandler (mkClient "wss://x" backoffOpts) (.errObj "ev")).2 =
      emitEffs (mkClient "wss://x" backoffOpts) (.json (.str "close")) (.errObj "ev") .undef
        ++ [.schedule (mkClient "wss://x" backoffOpts)._reconnectDelay] :=
  (C3_backoff_schedule (mkClient "wss://x" backoffOpts) (.errObj "ev") rfl).1

/-- C4: a `send` with no open transport fails immediately with the
not-connected rejection: the state is returned unchanged (no request id
consumed, no pending entry), and no effect — in particular no
transmission — is produced. -/
theorem C4_send_not_open (s : WsState) (obj : JsonFields) (awaitAck : Bool)
    (timeout : ℚ) (h : s._ws ≠ some ReadyState.OPEN) :
    send s obj awaitAck timeout = (s, [], .notOpen) := by
  cases hws : s._ws with
  | none => simp [send, hws]
  | some rs =>
    cases rs with
    | OPEN => exact absurd hws h
    | CONNECTING => simp [send, hws]
    | CLOSING => simp [send, hws]
    | CLOSED => simp [send, hws]

/-- Witness for C4: a freshly constructed (never connected) client rejects
a send without any state change. -/
theorem C4_send_not_open_wit :
    send (mkClient "wss://x" noOpts) (JsonFields.ofList [("cmd", .str "x")]) true 5000
      = (mkClient "wss://x" noOpts, [], .notOpen) :=
  C4_send_not_open (mkClient "wss://x" noOpts)
    (JsonFields.ofList [("cmd", .str "x")]) true 5000 (by decide)

/-- C9: `disconnect()` cancels the heartbeat timer, clears reconnect
intent (so a later close schedules nothing), and leaves the pending-ack
table and its timeout timers untouched; a pending ack's timer still fires
afterwards and rejects with the timeout error. -/
theorem C9_disconnect_pending (s : WsState) (r : String) (q : ℚ)
    (ht : (r, q) ∈ s._ackTimers) :
    (disconnect s).1._pendingAcks = s._pendingAcks ∧
    (disconnect s).1._ackTimers = s._ackTimers ∧
    (disconnect s).1._heartbeatTimer = none ∧
    (disconnect s).1._shouldReconnect = false ∧
    (∀ ev, (closeHandler (disconnect s).1 ev).2 =
        emitEffs (disconnect s).1 (.json (.str "close")) ev .undef) ∧
    (timeoutFire (disconnect s).1 r).2 = [.rejectP (some r) "Ack timeout"] := by
  obtain ⟨hp, hta, hh, hsr, _, _⟩ := disconnect_fields s
  refine ⟨hp, hta, hh, hsr, ?_, ?_⟩
  · intro ev
    simp [closeHandler, hsr]
  · have hany : (disconnect s).1._ackTimers.any (fun p => p.1 = r) = true := by
      refine List.any_eq_true.mpr ⟨(r, q), ?_, by simp⟩
      rw [hta]
      exact ht
    simp [timeoutFire, hany]

/-- Witness for C9: disconnecting the client with request id "1" pending
leaves the entry and timer in place, and the timer still rejects. -/
theorem C9_disconnect_pending_wit :
    (disconnect pendClient).1._pendingAcks = pendClient._pendingAcks ∧
    (disconnect pendClient).1._ackTimers = pendClient._ackTimers ∧
    (disconnect pendClient).1._heartbeatTimer = none ∧
    (disconnect pendClient).1._shouldReconnect = false ∧
    (∀ ev, (closeHandler (disconnect pendClient).1 ev).2 =
        emitEffs (disconnect pendClient).1 (.json (.str "close")) ev .undef) ∧
    (timeoutFire (disconnect pendClient).1 "1").2 =
      [.rejectP (some "1") "Ack timeout"] :=
  C9_disconnect_pending pendClient "1" 5000 (by decide)

/-- C10: over an open transport every send — fire-and-forget included —
consumes one request id (the counter is incremented), transmits a packet
that is the caller's command with `request_id` set to the decimal
rendering of the counter (overwriting any caller-supplied `request_id`;
the caller's object is a value and stays intact), and an
`awaitAck: false` send installs no pending entry and no timer. -/
theorem C10_send_fresh_id (s : WsState) (obj : JsonFields) (awaitAck : Bool)
    (timeout : ℚ) (h : s._ws = some ReadyState.OPEN) :
    (send s obj awaitAck timeout).1._nextRequestId = s._nextRequestId + 1 ∧
    (send s obj awaitAck timeout).2.1 =
      [.wsSendEff (.obj (obj.setField "request_id" (.str (toString s._nextRequestId))))] ∧
    (obj.setField "request_id" (.str (toString s._nextRequestId))).get "request_id" =
      some (.str (toString s._nextRequestId)) ∧
    (awaitAck = false →
      (send s obj awaitAck timeout).1._pendingAcks = s._pendingAcks ∧
      (send s obj awaitAck timeout).1._ackTimers = s._ackTimers) := by
  cases awaitAck with
  | false =>
    exact ⟨by simp [send, h], by simp [send, h],
      JsonFields.get_setField obj "request_id" (.str (toString s._nextRequestId)),
      fun _ => ⟨by simp [send, h], by simp [send, h]⟩⟩
  | true =>
    exact ⟨by simp [send, h], by simp [send, h],
      JsonFields.get_setField obj "request_id" (.str (toString s._nextRequestId)),
      fun hc => absurd hc (by simp)⟩

/-- Witness for C10: a fire-and-forget send on the open client, with a
caller-supplied `request_id` that gets overwritten by `"1"`. -/
theorem C10_send_fresh_id_wit :
    (send openClient (JsonFields.ofList [("cmd", .str "x"), ("request_id", .str "zz")])
        false 5000).2.1 =
      [.wsSendEff (.obj ((JsonFields.ofList [("cmd", .str "x"), ("request_id", .str "zz")]).setField
        "request_id" (.str (toString openClient._nextRequestId))))] ∧
    ((JsonFields.ofList [("cmd", .str "x"), ("request_id", .str "zz")]).setField
        "request_id" (.str (toString openClient._nextRequestId))).get "request_id" =
      some (.str (toString openClient._nextRequestId)) ∧
    (send openClient (JsonFields.ofList [("cmd", .str "x"), ("request_id", .str "zz")])
        false 5000).1._pendingAcks = openClient._pendingAcks :=
  ⟨(C10_send_fresh_id openClient
      (JsonFields.ofList [("cmd", .str "x"), ("request_id", .str "zz")]) false 5000 rfl).2.1,
   (C10_send_fresh_id openClient
      (JsonFields.ofList [("cmd", .str "x"), ("request_id", .str "zz")]) false 5000 rfl).2.2.1,
   ((C10_send_fresh_id openClient
      (JsonFields.ofList [("cmd", .str "x"), ("request_id", .str "zz")]) false 5000 rfl).2.2.2
      rfl).1⟩

theorem emitEffs_eq (s : WsState) (et pv dv : JsVal) :
    emitEffs s et pv dv =
      (typeListenersFor s et).map (fun cb => Eff.call cb [pv, dv])
      ++ s._anyListeners.map (fun cb => Eff.call cb [et, pv, dv]) := by
  simp [emitEffs, emitCallList, Function.comp_def]

theorem countCall_append (c : ℕ) (args : List JsVal) (e1 e2 : List Eff) :
    countCall c args (e1 ++ e2) = countCall c args e1 + countCall c args e2 := by
  simp [countCall, List.countP_append]

theorem countCall_map_zero (l : List ℕ) (c : ℕ) (args args2 : List JsVal)
    (h : c ∉ l ∨ args2 ≠ args) :
    countCall c args (l.map (fun cb => Eff.call cb args2)) = 0 := by
  rw [countCall, List.countP_eq_zero]
  intro e he
  obtain ⟨cb, hcb, rfl⟩ := List.mem_map.mp he
  simp only [decide_eq_true_eq]
  intro hEq
  obtain ⟨h1, h2⟩ := Eff.call.inj hEq
  rcases h with h | h
  · exact h (h1 ▸ hcb)
  · exact h h2

theorem countCall_map_mem (l : List ℕ) (c : ℕ) (args : List JsVal)
    (hnd : l.Nodup) (hc : c ∈ l) :
    countCall c args (l.map (fun cb => Eff.call cb args)) = 1 := by
  induction l with
  | nil => cases hc
  | cons x xs ih =>
    obtain ⟨hx, hnd2⟩ := List.nodup_cons.mp hnd
    rcases List.mem_cons.mp hc with rfl | h
    · have h0 : countCall c args (xs.map (fun cb => Eff.call cb args)) = 0 :=
        countCall_map_zero xs c args args (Or.inl hx)
      rw [countCall] at h0
      rw [List.map_cons, countCall, List.countP_cons, h0]
      simp
    · have hxc : ¬ (Eff.call x args = Eff.call c args) := by
        intro hEq
        exact hx ((Eff.call.inj hEq).1 ▸ h)
      have := ih hnd2 h
      simp [countCall, List.countP_cons, hxc] at this ⊢
      exact this

theorem messageHandler_dispatch (s : WsState) (data : Json)
    (hnn : data ≠ Json.null)
    (hr : ackResolver s (getField data "type") (getField data "request_id") = none) :
    messageHandler s (some data) =
      (s, emitEffs s (optToVal (getField data "type"))
            (optToVal (getField data "payload")) (.json data)
          ++ emitEffs s (.json (.str "*")) (.json data) .undef) := by
  cases data with
  | null => exact absurd rfl hnn
  | bool b => simp only [messageHandler, hr]
  | num q => simp only [messageHandler, hr]
  | str t => simp only [messageHandler, hr]
  | arr a => simp only [messageHandler, hr]
  | obj fs => simp only [messageHandler, hr]

theorem messageHandler_ack (s : WsState) (data : Json) (r : String)
    (hnn : data ≠ Json.null)
    (hr : ackResolver s (getField data "type") (getField data "request_id") = some r) :
    (messageHandler s (some data)).1._pendingAcks =
      s._pendingAcks.filter (fun x => x ≠ r) ∧
    (messageHandler s (some data)).1._ackTimers =
      s._ackTimers.filter (fun p => p.1 ≠ r) ∧
    (messageHandler s (some data)).2 =
      [.resolveP r (optToVal (getField data "payload"))] := by
  cases data with
  | null => exact absurd rfl hnn
  | bool b => exact ⟨by simp only [messageHandler, hr], by simp only [messageHandler, hr],
      by simp only [messageHandler, hr]⟩
  | num q => exact ⟨by simp only [messageHandler, hr], by simp only [messageHandler, hr],
      by simp only [messageHandler, hr]⟩
  | str t => exact ⟨by simp only [messageHandler, hr], by simp only [messageHandler, hr],
      by simp only [messageHandler, hr]⟩
  | arr a => exact ⟨by simp only [messageHandler, hr], by simp only [messageHandler, hr],
      by simp only [messageHandler, hr]⟩
  | obj fs => exact ⟨by simp only [messageHandler, hr], by simp only [messageHandler, hr],
      by simp only [messageHandler, hr]⟩

theorem ackResolver_hit (s : WsState) (r : String) (pl : Json)
    (hr : r ≠ "") (hp : r ∈ s._pendingAcks) :
    ackResolver s (getField (mkAckFrame r pl) "type")
      (getField (mkAckFrame r pl) "request_id") = some r := by
  have h1 : getField (mkAckFrame r pl) "type" = some (.str "ack") := by
    simp [mkAckFrame, Json.objL, JsonFields.ofList, getField, JsonFields.get]
  have h2 : getField (mkAckFrame r pl) "request_id" = some (.str r) := by
    simp [mkAckFrame, Json.objL, JsonFields.ofList, getField, JsonFields.get]
  rw [h1, h2]
  simp only [ackResolver]
  rw [if_pos ⟨trivial, hr, List.elem_eq_true_of_mem hp⟩]

theorem ackResolver_miss (s : WsState) (r : String) (pl : Json)
    (hp : r ∉ s._pendingAcks) :
    ackResolver s (getField (mkAckFrame r pl) "type")
      (getField (mkAckFrame r pl) "request_id") = none := by
  have h1 : getField (mkAckFrame r pl) "type" = some (.str "ack") := by
    simp [mkAckFrame, Json.objL, JsonFields.ofList, getField, JsonFields.get]
  have h2 : getField (mkAckFrame r pl) "request_id" = some (.str r) := by
    simp [mkAckFrame, Json.objL, JsonFields.ofList, getField, JsonFields.get]
  rw [h1, h2]
  simp only [ackResolver]
  rw [if_neg (fun h => hp (List.mem_of_elem_eq_true h.2.2))]

theorem ackResolver_not_ack (s : WsState) (ty rid : Option Json) (t : String)
    (ht : ty = some (.str t)) (hack : t ≠ "ack") :
    ackResolver s ty rid = none := by
  subst ht
  cases rid with
  | none => rfl
  | some j =>
    cases j with
    | str r => simp [ackResolver, hack]
    | null => rfl
    | bool b => rfl
    | num q => rfl
    | arr a => rfl
    | obj fs => rfl

theorem timeoutFire_fires (s : WsState) (r : String)
    (ht : s._ackTimers.any (fun p => p.1 = r) = true) :
    (timeoutFire s r).1._pendingAcks = s._pendingAcks.filter (fun x => x ≠ r) ∧
    (timeoutFire s r).1._ackTimers = s._ackTimers.filter (fun p => p.1 ≠ r) ∧
    (timeoutFire s r).2 = [.rejectP (some r) "Ack timeout"] :=
  ⟨by simp only [timeoutFire, ht, if_true], by simp only [timeoutFire, ht, if_true],
   by simp only [timeoutFire, ht, if_true]⟩

theorem timeoutFire_inert (s : WsState) (r : String)
    (ht : s._ackTimers.any (fun p => p.1 = r) = false) :
    timeoutFire s r = (s, []) := by
  simp only [timeoutFire, ht, Bool.false_eq_true, if_false]

theorem emitEffs_calls_only (s : WsState) (et pv dv : JsVal) :
    ∀ e ∈ emitEffs s et pv dv, ∃ c a, e = Eff.call c a := by
  intro e he
  rw [emitEffs] at he
  obtain ⟨cl, _, rfl⟩ := List.mem_map.mp he
  exact ⟨cl.cb, cl.args, rfl⟩

theorem typeListenersFor_nodup (s : WsState) (et : JsVal) (hw : wfListeners s) :
    (typeListenersFor s et).Nodup := by
  cases et with
  | undef => exact List.nodup_nil
  | errObj t => exact List.nodup_nil
  | json j =>
    cases j with
    | str k => exact hw.1 k
    | null => exact List.nodup_nil
    | bool b => exact List.nodup_nil
    | num q => exact List.nodup_nil
    | arr a => exact List.nodup_nil
    | obj fs => exact List.nodup_nil

theorem countCall_nil (c : ℕ) (args : List JsVal) : countCall c args [] = 0 := rfl

theorem dispatch_counts (s : WsState) (et pv dv dv2 : JsVal)
    (hw : wfListeners s) (hdv : dv ≠ JsVal.undef) :
    (∀ c ∈ typeListenersFor s et,
      countCall c [pv, dv]
        (emitEffs s et pv dv ++ emitEffs s (.json (.str "*")) dv2 .undef) = 1) ∧
    (∀ w ∈ s._anyListeners,
      countCall w [et, pv, dv]
        (emitEffs s et pv dv ++ emitEffs s (.json (.str "*")) dv2 .undef) = 1 ∧
      countCall w [.json (.str "*"), dv2, .undef]
        (emitEffs s et pv dv ++ emitEffs s (.json (.str "*")) dv2 .undef) = 1) := by
  have hA : (typeListenersFor s et).Nodup := typeListenersFor_nodup s et hw
  have hany : s._anyListeners.Nodup := hw.2.1
  have hstar : typeListenersFor s (.json (.str "*")) = [] := hw.2.2
  rw [emitEffs_eq, emitEffs_eq, hstar, List.map_nil, List.nil_append]
  constructor
  · intro c hc
    have h1 : countCall c [pv, dv]
        ((typeListenersFor s et).map (fun cb => Eff.call cb [pv, dv])) = 1 :=
      countCall_map_mem _ _ _ hA hc
    have h2 : countCall c [pv, dv]
        (s._anyListeners.map (fun cb => Eff.call cb [et, pv, dv])) = 0 :=
      countCall_map_zero _ _ _ _ (Or.inr (by simp))
    have h3 : countCall c [pv, dv]
        (s._anyListeners.map (fun cb => Eff.call cb [.json (.str "*"), dv2, .undef])) = 0 :=
      countCall_map_zero _ _ _ _ (Or.inr (by simp))
    simp [countCall_append, h1, h2, h3]
  · intro w hwm
    have hz1 : countCall w [et, pv, dv]
        ((typeListenersFor s et).map (fun cb => Eff.call cb [pv, dv])) = 0 :=
      countCall_map_zero _ _ _ _ (Or.inr (by simp))
    have hz2 : countCall w [.json (.str "*"), dv2, .undef]
        ((typeListenersFor s et).map (fun cb => Eff.call cb [pv, dv])) = 0 :=
      countCall_map_zero _ _ _ _ (Or.inr (by simp))
    have hm1 : countCall w [et, pv, dv]
        (s._anyListeners.map (fun cb => Eff.call cb [et, pv, dv])) = 1 :=
      countCall_map_mem _ _ _ hany hwm
    have hm2 : countCall w [.json (.str "*"), dv2, .undef]
        (s._anyListeners.map (fun cb => Eff.call cb [.json (.str "*"), dv2, .undef])) = 1 :=
      countCall_map_mem _ _ _ hany hwm
    have hx1 : countCall w [et, pv, dv]
        (s._anyListeners.map (fun cb => Eff.call cb [.json (.str "*"), dv2, .undef])) = 0 := by
      refine countCall_map_zero _ _ _ _ (Or.inr ?_)
      intro h
      simp only [List.cons.injEq, and_true] at h
      exact hdv h.2.2.symm
    have hx2 : countCall w [.json (.str "*"), dv2, .undef]
        (s._anyListeners.map (fun cb => Eff.call cb [et, pv, dv])) = 0 := by
      refine countCall_map_zero _ _ _ _ (Or.inr ?_)
      intro h
      simp only [List.cons.injEq, and_true] at h
      exact hdv h.2.2
    exact ⟨by simp [countCall_append, hz1, hm1, hx1],
           by simp [countCall_append, hz2, hx2, hm2]⟩

theorem any_filter_ne (l : List (String × ℚ)) (r : String) :
    (l.filter (fun p => p.1 ≠ r)).any (fun p => p.1 = r) = false := by
  by_contra h
  rw [Bool.not_eq_false, List.any_eq_true] at h
  obtain ⟨x, hx, hx1⟩ := h
  have h2 := List.of_mem_filter hx
  simp only [decide_eq_true_eq] at h2 hx1
  exact h2 hx1

theorem mkAckFrame_ne_null (r : String) (pl : Json) : mkAckFrame r pl ≠ Json.null := by
  simp [mkAckFrame, Json.objL, JsonFields.ofList]

theorem mkAckFrame_payload (r : String) (pl : Json) :
    optToVal (getField (mkAckFrame r pl) "payload") = .json pl := by
  simp [mkAckFrame, Json.objL, JsonFields.ofList, getField, JsonFields.get, optToVal]

/-- C5: for a send awaiting an ack under a live entry and timer, exactly one
outcome settles the call.  If the matching ack frame arrives first, the
promise resolves with the ack's payload, the table entry is removed, the
timer is cancelled, and a later timer firing is a no-op (no late timeout
failure).  If the timeout fires first, the promise rejects with the timeout
error, the entry is removed, and a later matching ack resolves nothing. -/
theorem C5_ack_exclusive (s : WsState) (r : String) (pl : Json)
    (hr : r ≠ "") (hp : r ∈ s._pendingAcks)
    (ht : s._ackTimers.any (fun p => p.1 = r) = true) :
    ((messageHandler s (some (mkAckFrame r pl))).2 = [.resolveP r (.json pl)] ∧
     r ∉ (messageHandler s (some (mkAckFrame r pl))).1._pendingAcks ∧
     timeoutFire (messageHandler s (some (mkAckFrame r pl))).1 r =
       ((messageHandler s (some (mkAckFrame r pl))).1, [])) ∧
    ((timeoutFire s r).2 = [.rejectP (some r) "Ack timeout"] ∧
     r ∉ (timeoutFire s r).1._pendingAcks ∧
     ∀ v, Eff.resolveP r v ∉
       (messageHandler (timeoutFire s r).1 (some (mkAckFrame r pl))).2) := by
  have hnn := mkAckFrame_ne_null r pl
  obtain ⟨hpa, hta, heff⟩ :=
    messageHandler_ack s (mkAckFrame r pl) r hnn (ackResolver_hit s r pl hr hp)
  obtain ⟨tpa, tta, teff⟩ := timeoutFire_fires s r ht
  refine ⟨⟨?_, ?_, ?_⟩, teff, ?_, ?_⟩
  · rw [heff, mkAckFrame_payload]
  · rw [hpa]
    simp
  · refine timeoutFire_inert _ r ?_
    rw [hta]
    exact any_filter_ne _ r
  · rw [tpa]
    simp
  · intro v hv
    have hp2 : r ∉ (timeoutFire s r).1._pendingAcks := by
      rw [tpa]; simp
    rw [messageHandler_dispatch (timeoutFire s r).1 (mkAckFrame r pl) hnn
      (ackResolver_miss (timeoutFire s r).1 r pl hp2)] at hv
    rcases List.mem_append.mp hv with h | h
    · obtain ⟨c, a, hca⟩ := emitEffs_calls_only _ _ _ _ _ h
      exact Eff.noConfusion hca
    · obtain ⟨c, a, hca⟩ := emitEffs_calls_only _ _ _ _ _ h
      exact Eff.noConfusion hca

/-- Witness for C5 at the pending request id "1" of the open client. -/
theorem C5_ack_exclusive_wit :
    (messageHandler pendClient (some (mkAckFrame "1" ackPayload))).2 =
      [.resolveP "1" (.json ackPayload)] ∧
    timeoutFire (messageHandler pendClient (some (mkAckFrame "1" ackPayload))).1 "1" =
      ((messageHandler pendClient (some (mkAckFrame "1" ackPayload))).1, []) ∧
    (timeoutFire pendClient "1").2 = [.rejectP (some "1") "Ack timeout"] :=
  ⟨(C5_ack_exclusive pendClient "1" ackPayload (by decide) (by decide) (by decide)).1.1,
   (C5_ack_exclusive pendClient "1" ackPayload (by decide) (by decide) (by decide)).1.2.2,
   (C5_ack_exclusive pendClient "1" ackPayload (by decide) (by decide) (by decide)).2.1⟩

/-- Counterexample to C1 at the spec's own scenario (frame of type "trade",
subscriber 0 on "trade", wildcard subscriber 1): the wildcard subscriber is
invoked twice, not exactly once — once with `(type, payload, frame)` from
the first `_emit` and once with `("*", frame, undefined)` from the second. -/
theorem C1_wildcard_once_cex :
    callsTo 1 (messageHandler tradeClient (some tradeFrame)).2 = 2 ∧
    callsTo 1 (messageHandler tradeClient (some tradeFrame)).2 ≠ 1 ∧
    callsTo 0 (messageHandler tradeClient (some tradeFrame)).2 = 1 ∧
    (messageHandler tradeClient (some tradeFrame)).2 =
      [.call 0 [.json tradePayload, .json tradeFrame],
       .call 1 [.json (.str "trade"), .json tradePayload, .json tradeFrame],
       .call 1 [.json (.str "*"), .json tradeFrame, .undef]] :=
  ⟨rfl, by decide, rfl, rfl⟩

theorem tradeClient_wf : wfListeners tradeClient := by
  refine ⟨?_, by decide, by decide⟩
  intro k
  show (lookupL [("trade", [0])] k).Nodup
  by_cases h : "trade" = k <;> simp [lookupL, h]

/-- C1 (amended): for an inbound frame whose type is a string other than
"ack", each type-keyed subscriber is invoked exactly once with
`(payload, frame)`, while each wildcard subscriber is invoked twice: once
with `(type, payload, frame)` and once with `("*", frame, undefined)`. -/
theorem C1_dispatch_amended (s : WsState) (data : Json) (t : String)
    (hw : wfListeners s)
    (ht : getField data "type" = some (.str t)) (hack : t ≠ "ack") :
    (messageHandler s (some data)).1 = s ∧
    (∀ c ∈ lookupL s._listeners t,
      countCall c [optToVal (getField data "payload"), .json data]
        (messageHandler s (some data)).2 = 1) ∧
    (∀ w ∈ s._anyListeners,
      countCall w [.json (.str t), optToVal (getField data "payload"), .json data]
        (messageHandler s (some data)).2 = 1 ∧
      countCall w [.json (.str "*"), .json data, .undef]
        (messageHandler s (some data)).2 = 1) := by
  have hnn : data ≠ Json.null := by
    intro h
    rw [h] at ht
    exact Option.noConfusion ht
  have hres : ackResolver s (getField data "type") (getField data "request_id") = none :=
    ackResolver_not_ack s _ _ t ht hack
  have hd := messageHandler_dispatch s data hnn hres
  have hdc := dispatch_counts s (.json (.str t)) (optToVal (getField data "payload"))
      (.json data) (.json data) hw (by simp)
  rw [hd, ht]
  simp only [optToVal]
  refine ⟨by trivial, hdc.1, hdc.2⟩

/-- Witness for the amended C1 at the spec's trade-frame scenario. -/
theorem C1_dispatch_amended_wit :
    (∀ c ∈ lookupL tradeClient._listeners "trade",
      countCall c [optToVal (getField tradeFrame "payload"), .json tradeFrame]
        (messageHandler tradeClient (some tradeFrame)).2 = 1) ∧
    (∀ w ∈ tradeClient._anyListeners,
      countCall w [.json (.str "trade"), optToVal (getField tradeFrame "payload"),
          .json tradeFrame]
        (messageHandler tradeClient (some tradeFrame)).2 = 1 ∧
      countCall w [.json (.str "*"), .json tradeFrame, .undef]
        (messageHandler tradeClient (some tradeFrame)).2 = 1) :=
  ⟨(C1_dispatch_amended tradeClient tradeFrame "trade" tradeClient_wf rfl (by decide)).2.1,
   (C1_dispatch_amended tradeClient tradeFrame "trade" tradeClient_wf rfl (by decide)).2.2⟩

theorem timeoutFire_keeps (s : WsState) (r : String) :
    (timeoutFire s r).1._listeners = s._listeners ∧
    (timeoutFire s r).1._anyListeners = s._anyListeners := by
  by_cases h : s._ackTimers.any (fun p => p.1 = r) <;> simp [timeoutFire, h]

theorem wfListeners_carry (s s2 : WsState) (hl : s2._listeners = s._listeners)
    (ha : s2._anyListeners = s._anyListeners) (hw : wfListeners s) :
    wfListeners s2 := by
  refine ⟨?_, ?_, ?_⟩
  · intro k
    rw [hl]
    exact hw.1 k
  · rw [ha]
    exact hw.2.1
  · rw [hl]
    exact hw.2.2

/-- Counterexample to C6: after the timeout for request id "1" fired (the
entry is gone), the late ack frame is not dropped silently — it is
dispatched, invoking the "ack" subscriber once and the wildcard subscriber
twice. -/
theorem C6_late_ack_cex :
    lateAckAfter._pendingAcks = [] ∧
    callsTo 8 (messageHandler lateAckAfter (some lateAckFrame)).2 = 1 ∧
    callsTo 7 (messageHandler lateAckAfter (some lateAckFrame)).2 = 2 ∧
    (messageHandler lateAckAfter (some lateAckFrame)).2 ≠ [] :=
  ⟨rfl, rfl, rfl, by decide⟩

theorem lateAckPend_wf : wfListeners lateAckPend := by
  refine ⟨?_, by decide, by decide⟩
  intro k
  show (lookupL [("ack", [8])] k).Nodup
  by_cases h : "ack" = k <;> simp [lookupL, h]

/-- C6 (amended): when the ack timeout fires, the call rejects with the
timeout error and the table entry is removed; an ack frame with that id
arriving afterwards resolves nothing and changes no state, but it is not
dropped silently: it falls through to ordinary dispatch, reaching each
"ack"-keyed subscriber once and each wildcard subscriber twice. -/
theorem C6_late_ack_amended (s : WsState) (r : String) (pl : Json)
    (hw : wfListeners s)
    (ht : s._ackTimers.any (fun p => p.1 = r) = true) :
    (timeoutFire s r).2 = [.rejectP (some r) "Ack timeout"] ∧
    r ∉ (timeoutFire s r).1._pendingAcks ∧
    (messageHandler (timeoutFire s r).1 (some (mkAckFrame r pl))).1 = (timeoutFire s r).1 ∧
    (∀ v, Eff.resolveP r v ∉
      (messageHandler (timeoutFire s r).1 (some (mkAckFrame r pl))).2) ∧
    (∀ c ∈ lookupL s._listeners "ack",
      countCall c [.json pl, .json (mkAckFrame r pl)]
        (messageHandler (timeoutFire s r).1 (some (mkAckFrame r pl))).2 = 1) ∧
    (∀ w ∈ s._anyListeners,
      countCall w [.json (.str "ack"), .json pl, .json (mkAckFrame r pl)]
        (messageHandler (timeoutFire s r).1 (some (mkAckFrame r pl))).2 = 1 ∧
      countCall w [.json (.str "*"), .json (mkAckFrame r pl), .undef]
        (messageHandler (timeoutFire s r).1 (some (mkAckFrame r pl))).2 = 1) := by
  have hnn := mkAckFrame_ne_null r pl
  obtain ⟨tpa, tta, teff⟩ := timeoutFire_fires s r ht
  obtain ⟨hkl, hka⟩ := timeoutFire_keeps s r
  have hp2 : r ∉ (timeoutFire s r).1._pendingAcks := by
    rw [tpa]; simp
  have hw2 : wfListeners (timeoutFire s r).1 := wfListeners_carry s _ hkl hka hw
  have hmiss := ackResolver_miss (timeoutFire s r).1 r pl hp2
  have hd := messageHandler_dispatch (timeoutFire s r).1 (mkAckFrame r pl) hnn hmiss
  have hty : getField (mkAckFrame r pl) "type" = some (.str "ack") := by
    simp [mkAckFrame, Json.objL, JsonFields.ofList, getField, JsonFields.get]
  have hdc := dispatch_counts (timeoutFire s r).1 (.json (.str "ack"))
      (optToVal (getField (mkAckFrame r pl) "payload"))
      (.json (mkAckFrame r pl)) (.json (mkAckFrame r pl)) hw2 (by simp)
  refine ⟨teff, hp2, ?_, ?_, ?_, ?_⟩
  · rw [hd]
  · intro v hv
    rw [hd] at hv
    rcases List.mem_append.mp hv with h | h
    · obtain ⟨c, a, hca⟩ := emitEffs_calls_only _ _ _ _ _ h
      exact Eff.noConfusion hca
    · obtain ⟨c, a, hca⟩ := emitEffs_calls_only _ _ _ _ _ h
      exact Eff.noConfusion hca
  · intro c hc
    have hc2 : c ∈ typeListenersFor (timeoutFire s r).1 (.json (.str "ack")) := by
      show c ∈ lookupL (timeoutFire s r).1._listeners "ack"
      rw [hkl]
      exact hc
    have := hdc.1 c hc2
    rw [hd, hty] at *
    rw [mkAckFrame_payload] at this
    exact this
  · intro w hwm
    have hw2m : w ∈ (timeoutFire s r).1._anyListeners := by
      rw [hka]; exact hwm
    have := hdc.2 w hw2m
    rw [hd, hty] at *
    rw [mkAckFrame_payload] at this
    exact this

/-- Witness for the amended C6 at the late-ack scenario state. -/
theorem C6_late_ack_amended_wit :
    (timeoutFire lateAckPend "1").2 = [.rejectP (some "1") "Ack timeout"] ∧
    "1" ∉ (timeoutFire lateAckPend "1").1._pendingAcks ∧
    (∀ w ∈ lateAckPend._anyListeners,
      countCall w [.json (.str "ack"), .json ackPayload, .json (mkAckFrame "1" ackPayload)]
        (messageHandler (timeoutFire lateAckPend "1").1
          (some (mkAckFrame "1" ackPayload))).2 = 1 ∧
      countCall w [.json (.str "*"), .json (mkAckFrame "1" ackPayload), .undef]
        (messageHandler (timeoutFire lateAckPend "1").1
          (some (mkAckFrame "1" ackPayload))).2 = 1) :=
  ⟨(C6_late_ack_amended lateAckPend "1" ackPayload lateAckPend_wf (by decide)).1,
   (C6_late_ack_amended lateAckPend "1" ackPayload lateAckPend_wf (by decide)).2.1,
   (C6_late_ack_amended lateAckPend "1" ackPayload lateAckPend_wf (by decide)).2.2.2.2.2⟩

theorem ackResolver_ty_none (s : WsState) (rid : Option Json) :
    ackResolver s none rid = none := by
  cases rid with
  | none => rfl
  | some j =>
    cases j with
    | null => rfl
    | bool b => rfl
    | num q => rfl
    | str t => rfl
    | arr a => rfl
    | obj fs => rfl

/-- Counterexample to C7: a well-formed JSON object with no `type` field is
not reported as an error (the "error" subscriber 5 is never invoked) and is
dispatched to the wildcard subscriber 0 (twice), contradicting the claim
that such frames raise `error` and are not dispatched. -/
theorem C7_missing_type_cex :
    callsTo 5 (messageHandler missTypeClient (some noTypeFrame)).2 = 0 ∧
    callsTo 0 (messageHandler missTypeClient (some noTypeFrame)).2 = 2 ∧
    (messageHandler missTypeClient (some noTypeFrame)).2 =
      [.call 0 [.undef, .json (.num 1), .json noTypeFrame],
       .call 0 [.json (.str "*"), .json noTypeFrame, .undef]] :=
  ⟨rfl, rfl, rfl⟩

theorem missTypeClient_wf : wfListeners missTypeClient := by
  refine ⟨?_, by decide, by decide⟩
  intro k
  show (lookupL [("error", [5])] k).Nodup
  by_cases h : "error" = k <;> simp [lookupL, h]

/-- C7 (amended): malformed JSON (a throwing `JSON.parse`) emits a local
`error` event and dispatches nothing else, and the handler returns normally
with the state unchanged.  A parseable JSON object missing `type`, however,
is dispatched rather than reported: only wildcard subscribers are invoked —
each exactly twice, with `(undefined, payload, frame)` and
`("*", frame, undefined)` — and no type-keyed subscriber runs. -/
theorem C7_parse_failure_amended (s : WsState) (data : Json) (fs : JsonFields)
    (hw : wfListeners s) (hd : data = .obj fs)
    (hty : getField data "type" = none) :
    (messageHandler s none =
      (s, emitEffs s (.json (.str "error")) (.errObj "SyntaxError") .undef)) ∧
    (messageHandler s (some data)).1 = s ∧
    (∀ c args, Eff.call c args ∈ (messageHandler s (some data)).2 →
      c ∈ s._anyListeners) ∧
    (∀ w ∈ s._anyListeners,
      countCall w [.undef, optToVal (getField data "payload"), .json data]
        (messageHandler s (some data)).2 = 1 ∧
      countCall w [.json (.str "*"), .json data, .undef]
        (messageHandler s (some data)).2 = 1) := by
  have hnn : data ≠ Json.null := by
    rw [hd]
    simp
  have hres : ackResolver s (getField data "type") (getField data "request_id") = none := by
    rw [hty]
    exact ackResolver_ty_none s _
  have hdsp := messageHandler_dispatch s data hnn hres
  have hdc := dispatch_counts s JsVal.undef (optToVal (getField data "payload"))
      (.json data) (.json data) hw (by simp)
  have hundef : typeListenersFor s JsVal.undef = [] := rfl
  have hstar : typeListenersFor s (.json (.str "*")) = [] := hw.2.2
  refine ⟨rfl, by rw [hdsp], ?_, ?_⟩
  · intro c args hc
    rw [hdsp, hty] at hc
    simp only [optToVal] at hc
    rw [emitEffs_eq, emitEffs_eq, hundef, hstar] at hc
    simp only [List.map_nil, List.nil_append] at hc
    rcases List.mem_append.mp hc with h | h
    · obtain ⟨cb, hcb, he⟩ := List.mem_map.mp h
      obtain ⟨h1, _⟩ := Eff.call.inj he.symm
      rw [h1]
      exact hcb
    · obtain ⟨cb, hcb, he⟩ := List.mem_map.mp h
      obtain ⟨h1, _⟩ := Eff.call.inj he.symm
      rw [h1]
      exact hcb
  · intro w hwm
    have := hdc.2 w hwm
    rw [hdsp, hty]
    simp only [optToVal]
    exact this

/-- Witness for the amended C7 at the missing-type scenario. -/
theorem C7_parse_failure_amended_wit :
    (messageHandler missTypeClient none =
      (missTypeClient,
       emitEffs missTypeClient (.json (.str "error")) (.errObj "SyntaxError") .undef)) ∧
    (∀ c args, Eff.call c args ∈ (messageHandler missTypeClient (some noTypeFrame)).2 →
      c ∈ missTypeClient._anyListeners) ∧
    (∀ w ∈ missTypeClient._anyListeners,
      countCall w [.undef, optToVal (getField noTypeFrame "payload"), .json noTypeFrame]
        (messageHandler missTypeClient (some noTypeFrame)).2 = 1 ∧
      countCall w [.json (.str "*"), .json noTypeFrame, .undef]
        (messageHandler missTypeClient (some noTypeFrame)).2 = 1) :=
  ⟨(C7_parse_failure_amended missTypeClient noTypeFrame
      (JsonFields.ofList [("payload", .num 1)]) missTypeClient_wf rfl rfl).1,
   (C7_parse_failure_amended missTypeClient noTypeFrame
      (JsonFields.ofList [("payload", .num 1)]) missTypeClient_wf rfl rfl).2.2.1,
   (C7_parse_failure_amended missTypeClient noTypeFrame
      (JsonFields.ofList [("payload", .num 1)]) missTypeClient_wf rfl rfl).2.2.2⟩

theorem callsOf_runOneCb (throws : ℕ → Bool) (c : Call) :
    callsOf (runOneCb throws c) = [⟨c.cb, c.args⟩] := by
  rcases c with ⟨cb, args⟩
  by_cases h : throws cb <;> simp [runOneCb, invokeCb, h, callsOf]

theorem callsOf_foldl (throws : ℕ → Bool) (l : List Call) (acc : List Eff) :
    callsOf (l.foldl (fun a c => a ++ runOneCb throws c) acc) = callsOf acc ++ l := by
  induction l generalizing acc with
  | nil => simp
  | cons c cs ih =>
    rw [List.foldl_cons, ih, callsOf, List.filterMap_append]
    show callsOf acc ++ callsOf (runOneCb throws c) ++ cs = callsOf acc ++ c :: cs
    rw [callsOf_runOneCb, List.append_assoc, List.singleton_append]

/-- C8: for any assignment of throwing behaviour to callbacks, a full
`_emit` run returns normally (no exception reaches the caller or the
transport) and the sequence of callbacks invoked equals the full snapshot
of registered callbacks with their arguments — a throwing callback never
prevents the remaining subscribers from being invoked. -/
theorem C8_listener_isolation (throws : ℕ → Bool) (s : WsState)
    (eventType payload full : JsVal) :
    ∃ effs, emitRun throws s eventType payload full = Except.ok effs ∧
      callsOf effs = emitCallList s eventType payload full := by
  refine ⟨_, rfl, ?_⟩
  rw [callsOf_foldl]
  simp [callsOf]
